import Mathlib

/-!
# disttrust: leases built from provider secrets, and anchor registration

A shallow embedding of `vault/lease.go` (`LeaseFromSecret`, `makeResponse` and the
`Lease` accessors) and of `applyAnchors` from `cmd/disttrust.go`.

Conventions of the embedding:

* a Go pointer that may be nil is an `Option`; a Go `error` value is an
  `Option GoError`, `none` being the nil error;
* `time.Time` is the instant it denotes, counted in nanoseconds from the zero `Time`;
  `time.Duration` is a signed 64-bit count of nanoseconds, so arithmetic on durations
  wraps modulo `2^64`;
* the wall clock is a sequence of readings; every `time.Now()` consumes one reading;
* `pem.Decode` and `x509.ParseCertificate` are library functions and enter as
  parameters (`CertLib`).
-/

namespace Disttrust

/-! ## Errors (`github.com/pkg/errors`) -/

/-- A non-nil Go error: either created by `errors.New` or wrapping a cause. -/
inductive GoError where
  | new (msg : String)
  | wrap (cause : GoError) (msg : String)
  deriving DecidableEq, Repr

/-- The call `errors.New(msg)`. -/
def errorsNew (msg : String) : GoError := GoError.new msg

/-- The call `errors.Wrap(err, msg)`: annotates `err` with `msg`; when `err` is nil the
result is nil. -/
def errorsWrap (err : Option GoError) (msg : String) : Option GoError :=
  match err with
  | none => none
  | some e => some (GoError.wrap e msg)

/-! ## Time -/

/-- An instant, in nanoseconds from the zero `time.Time`. -/
abbrev Time := Int

/-- A `time.Duration`: nanoseconds, stored in a signed 64-bit integer. -/
abbrev Duration := Int

/-- Two's-complement reduction of an integer to the `int64` range. -/
def wrapInt64 (x : Int) : Int := (x + 2 ^ 63) % 2 ^ 64 - 2 ^ 63

/-- The constant `time.Second`. -/
def Second : Duration := 1000000000

/-- The conversion `time.Duration(n)` of a Go `int`. -/
def durationOfInt (n : Int) : Duration := wrapInt64 n

/-- The product of two durations, in `int64` arithmetic. -/
def durationMul (a b : Duration) : Duration := wrapInt64 (a * b)

/-- The method `Time.Add`. -/
def timeAdd (t : Time) (d : Duration) : Time := t + d

/-- The wall clock: the readings it will give, and how many have been taken so far. -/
structure Clock where
  readings : Nat → Time
  pos : Nat

/-- The call `time.Now()`: the next reading, and the clock after it. -/
def timeNow (c : Clock) : Time × Clock :=
  (c.readings c.pos, { c with pos := c.pos + 1 })

/-- The clock never runs backwards. -/
def Clock.NonDecreasing (c : Clock) : Prop :=
  ∀ i j : Nat, i ≤ j → c.readings i ≤ c.readings j

/-! ## Provider data (`provider.Request`, `provider.Response`, `api.Secret`) -/

/-- The struct `provider.Request`. -/
structure Request where
  CommonName : String
  AltNames : List String
  deriving DecidableEq, Repr

/-- The struct `provider.Response`. -/
structure Response where
  Certificate : String
  PrivateKey : String
  Serial : String
  deriving DecidableEq, Repr

/-- A value held in a `map[string]interface{}` decoded from JSON. -/
inductive Value where
  | null
  | bool (b : Bool)
  | number (digits : String)
  | str (s : String)
  | arr (items : List Value)
  | obj (fields : List (String × Value))

/-- A `map[string]interface{}`: the value stored under each key, if any. -/
abbrev Data := String → Option Value

/-- The fields of `api.Secret` that the lease code reads. -/
structure Secret where
  RequestID : String
  LeaseID : String
  LeaseDuration : Int
  Renewable : Bool
  Data : Data

/-- The comma-ok type assertion `data[key].(string)`: the string and `true`, or the empty
string and `false` when the key is absent or holds a value of another type. -/
def assertString (v : Option Value) : String × Bool :=
  match v with
  | some (Value.str s) => (s, true)
  | _ => ("", false)

/-! ## Certificates (`encoding/pem`, `crypto/x509`) -/

/-- The field of `pem.Block` that the lease code reads: the decoded bytes. -/
structure Block where
  Bytes : List Nat
  deriving DecidableEq, Repr

/-- The field of `x509.Certificate` that the lease code reads. -/
structure Certificate where
  NotAfter : Time
  deriving DecidableEq, Repr

/-- The two library functions used on the certificate string. `pemDecode` gives the first
PEM block of the input, or nothing; `parseCertificate` parses DER bytes. -/
structure CertLib where
  pemDecode : String → Option Block
  parseCertificate : List Nat → Except GoError Certificate

/-! ## `vault/lease.go` -/

/-- The struct `Lease`. -/
structure Lease where
  leaseID : String
  renewable : Bool
  request : Option Request
  response : Option Response
  start : Time
  till : Time
  deriving DecidableEq, Repr

/-- The composite literal `Lease{}`. -/
def Lease.zero : Lease :=
  { leaseID := "", renewable := false, request := none, response := none,
    start := 0, till := 0 }

/-- The method `HasResponse`. -/
def Lease.HasResponse (l : Lease) : Bool := l.response.isSome

/-- The method `ID`. -/
def Lease.ID (l : Lease) : String := l.leaseID

/-- The method `Request`. -/
def Lease.Request (l : Lease) : Option Request := l.request

/-- The method `Response`. -/
def Lease.Response (l : Lease) : Option Response × Option GoError := (l.response, none)

/-- The method `Start`. -/
def Lease.Start (l : Lease) : Time := l.start

/-- The method `Till`. -/
def Lease.Till (l : Lease) : Time := l.till

/-- The function `makeResponse`. It returns either a nil response with an error, or a
response with a nil error; the two shapes are the two constructors of `Except`. -/
def makeResponse (data : Data) : Except GoError Response :=
  let res : Response := { Certificate := "", PrivateKey := "", Serial := "" }
  let r1 := assertString (data "certificate")
  let res := { res with Certificate := r1.1 }
  if !r1.2 then
    Except.error (errorsNew "unknown type for issued certificate")
  else
    let r2 := assertString (data "private_key")
    let res := { res with PrivateKey := r2.1 }
    if !r2.2 then
      Except.error (errorsNew "unknown type for issued private key")
    else
      let r3 := assertString (data "serial_number")
      let res := { res with Serial := r3.1 }
      if !r3.2 then
        Except.error (errorsNew "unknown type for issued serial")
      else
        Except.ok res

/-- The function `LeaseFromSecret`. The result is the pair the Go function returns (lease
pointer, error) together with the clock after the call. -/
def LeaseFromSecret (lib : CertLib) (clk : Clock) (req : Option Request) (secret : Secret) :
    (Option Lease × Option GoError) × Clock :=
  let lease := Lease.zero
  let n1 := timeNow clk
  let clk := n1.2
  let lease := { lease with start := n1.1 }
  let lease := { lease with renewable := secret.Renewable }
  let lease :=
    if lease.renewable then { lease with leaseID := secret.LeaseID }
    else { lease with leaseID := secret.RequestID }
  match makeResponse secret.Data with
  | Except.error e => ((none, errorsWrap (some e) "making lease response"), clk)
  | Except.ok res =>
    -- past the check, the variable `err` of the function body is nil
    let err : Option GoError := none
    let lease := { lease with response := some res }
    if secret.LeaseDuration ≠ 0 then
      let n2 := timeNow clk
      let clk := n2.2
      let lease :=
        { lease with till := timeAdd n2.1 (durationMul (durationOfInt secret.LeaseDuration) Second) }
      ((some lease, none), clk)
    else
      match lib.pemDecode res.Certificate with
      | none => ((none, errorsWrap err "decoding pem lease certificate"), clk)
      | some block =>
        -- `cert, err :=` declares a fresh `err` in the else block
        match lib.parseCertificate block.Bytes with
        | Except.error err => ((none, errorsWrap (some err) "making lease renew time"), clk)
        | Except.ok cert =>
          let lease := { lease with till := cert.NotAfter }
          ((some lease, none), clk)

/-! ## `cmd/disttrust.go`: `applyAnchors`

The packages `config` and `conductor` and the provider store are used through their
interfaces only. Their types are parameters: `Prov` (a provider), `Store` (the provider
store), `DestId`, `DestOpts`, `ActionCfg` (the configuration of a destination and of an
action), `Dest`, `Action` (the constructed destination and action), `Status` (a
`*conductor.MemberStatus`) and `Con` (the state of the conductor). -/

/-- The fields of `config.Anchor` that `applyAnchors` reads. -/
structure Anchor (DestId DestOpts ActionCfg : Type) where
  Name : String
  Provider : String
  CommonName : String
  AltNames : List String
  Dest : DestId
  DestOptions : DestOpts
  Action : ActionCfg

/-- Modelled from the spec: the type `conductor.LeaseHandle`, which is not among the
sources; it composes a destination and an action. -/
structure LeaseHandle (Dest Action : Type) where
  dest : Dest
  action : Action

/-- Modelled from the spec: the type `conductor.Member`, which is not among the sources;
it binds a name, a provider, a request and a lease handle. -/
structure Member (Prov Dest Action : Type) where
  name : String
  provider : Prov
  request : Request
  handle : LeaseHandle Dest Action

/-- Modelled from the spec: the constructor `conductor.DefaultLeaseHandle`, which is not
among the sources. -/
def DefaultLeaseHandle {Dest Action : Type} (dest : Dest) (action : Action) :
    LeaseHandle Dest Action :=
  { dest := dest, action := action }

/-- Modelled from the spec: the constructor `conductor.NewMember`, which is not among the
sources. -/
def NewMember {Prov Dest Action : Type} (name : String) (prv : Prov) (req : Request)
    (handle : LeaseHandle Dest Action) : Member Prov Dest Action :=
  { name := name, provider := prv, request := req, handle := handle }

/-- The operations that `applyAnchors` calls on its collaborators: `store.Fetch`,
`config.ToDest`, `config.ToAction` and `con.AddMember`, the last one returning the status
of the new member and the conductor after the registration. -/
structure Collaborators (Prov Store DestId DestOpts ActionCfg Dest Action Status Con : Type) where
  Fetch : Store → String → Except GoError Prov
  ToDest : DestId → DestOpts → Except GoError Dest
  ToAction : ActionCfg → Except GoError Action
  AddMember : Con → Member Prov Dest Action → Status × Con

/-- The loop of `applyAnchors` over the anchors still to be processed, from the conductor
`con` and the statuses collected so far. A nil slice of statuses is `none`. -/
def applyAnchorsLoop {Prov Store DestId DestOpts ActionCfg Dest Action Status Con : Type}
    (env : Collaborators Prov Store DestId DestOpts ActionCfg Dest Action Status Con)
    (store : Store) :
    List (Anchor DestId DestOpts ActionCfg) → Con → List Status →
      (Option (List Status) × Option GoError) × Con
  | [], con, status => ((some status, none), con)
  | cnfAnchor :: rest, con, status =>
    match env.Fetch store cnfAnchor.Provider with
    | Except.error err => ((none, errorsWrap (some err) "getting anchor provider"), con)
    | Except.ok prv =>
      let req : Request := { CommonName := "", AltNames := [] }
      let req := { req with CommonName := cnfAnchor.CommonName }
      let req := { req with AltNames := cnfAnchor.AltNames }
      match env.ToDest cnfAnchor.Dest cnfAnchor.DestOptions with
      | Except.error err => ((none, errorsWrap (some err) "make dest for anchor"), con)
      | Except.ok dest =>
        match env.ToAction cnfAnchor.Action with
        | Except.error err => ((none, errorsWrap (some err) "make action for anchor"), con)
        | Except.ok action =>
          let memHandle := DefaultLeaseHandle dest action
          let member := NewMember cnfAnchor.Name prv req memHandle
          let r := env.AddMember con member
          applyAnchorsLoop env store rest r.2 (status ++ [r.1])

/-- The function `applyAnchors`: the statuses and the error it returns, and the conductor
after the call. -/
def applyAnchors {Prov Store DestId DestOpts ActionCfg Dest Action Status Con : Type}
    (env : Collaborators Prov Store DestId DestOpts ActionCfg Dest Action Status Con)
    (anchors : List (Anchor DestId DestOpts ActionCfg)) (con : Con) (store : Store) :
    (Option (List Status) × Option GoError) × Con :=
  applyAnchorsLoop env store anchors con []

/-- The member is the one built from the anchor: the provider fetched under the
anchor's provider name, the destination and action constructed from its configuration,
the anchor's name, and a request carrying its common name and alternative names. -/
def BuiltFrom {Prov Store DestId DestOpts ActionCfg Dest Action Status Con : Type}
    (env : Collaborators Prov Store DestId DestOpts ActionCfg Dest Action Status Con)
    (store : Store) (a : Anchor DestId DestOpts ActionCfg) (m : Member Prov Dest Action) :
    Prop :=
  ∃ (prv : Prov) (dest : Dest) (action : Action),
    env.Fetch store a.Provider = Except.ok prv ∧
    env.ToDest a.Dest a.DestOptions = Except.ok dest ∧
    env.ToAction a.Action = Except.ok action ∧
    m = { name := a.Name, provider := prv,
          request := { CommonName := a.CommonName, AltNames := a.AltNames },
          handle := { dest := dest, action := action } }

/-- The anchor cannot be turned into a member: its provider is not in the store, or its
destination or its action cannot be constructed. -/
def Unbuildable {Prov Store DestId DestOpts ActionCfg Dest Action Status Con : Type}
    (env : Collaborators Prov Store DestId DestOpts ActionCfg Dest Action Status Con)
    (store : Store) (a : Anchor DestId DestOpts ActionCfg) : Prop :=
  (∃ e, env.Fetch store a.Provider = Except.error e) ∨
  (∃ e, env.ToDest a.Dest a.DestOptions = Except.error e) ∨
  (∃ e, env.ToAction a.Action = Except.error e)

/-- Registering the members one after the other, in list order: the statuses returned by
the successive calls of `AddMember`, and the conductor after the last one. -/
def addAll {M Status Con : Type} (add : Con → M → Status × Con) : Con → List M → List Status × Con
  | con, [] => ([], con)
  | con, m :: ms =>
    let r := add con m
    let rs := addAll add r.2 ms
    (r.1 :: rs.1, rs.2)

/-- A store with the single provider `"vault"`, destinations named by a non-empty path,
actions named by a non-empty command, and a conductor that is the list of the names of
its members, a member's status being its name. -/
def sampleEnv : Collaborators String Unit String Unit String String String String (List String) :=
  { Fetch := fun _ name =>
      if name = "vault" then Except.ok "vault-provider"
      else Except.error (errorsNew "provider not found"),
    ToDest := fun d _ =>
      if d = "" then Except.error (errorsNew "unknown dest") else Except.ok d,
    ToAction := fun c =>
      if c = "" then Except.error (errorsNew "unknown action") else Except.ok c,
    AddMember := fun con m => (m.name, con ++ [m.name]) }

/-- The member that the sample collaborators build from `sampleAnchor name "vault"`. -/
def sampleMember (name : String) : Member String String String :=
  { name := name, provider := "vault-provider",
    request := { CommonName := name ++ ".example.org", AltNames := [] },
    handle := { dest := "/etc/ssl/" ++ name, action := "reload" } }

/-- An anchor of the sample configuration. -/
def sampleAnchor (name prov : String) : Anchor String Unit String :=
  { Name := name, Provider := prov, CommonName := name ++ ".example.org", AltNames := [],
    Dest := "/etc/ssl/" ++ name, DestOptions := (), Action := "reload" }

/-! ## Vocabulary of the statements -/

/-- The value stored under a key is a string. -/
def IsString (v : Option Value) : Prop := ∃ s : String, v = some (Value.str s)

/-- The payload holds the strings `c`, `k` and `s` under the three response keys. -/
def HoldsStrings (data : Data) (c k s : String) : Prop :=
  data "certificate" = some (Value.str c) ∧
  data "private_key" = some (Value.str k) ∧
  data "serial_number" = some (Value.str s)

/-- The lease that `LeaseFromSecret` assembles from a secret, a response and the two ends
of the validity window. -/
def assembled (secret : Secret) (res : Response) (start till : Time) : Lease :=
  { leaseID := if secret.Renewable then secret.LeaseID else secret.RequestID,
    renewable := secret.Renewable,
    request := none,
    response := some res,
    start := start,
    till := till }

/-- A payload with exactly the three response keys, all strings. -/
def stringData (c k s : String) : Data := fun key =>
  if key = "certificate" then some (Value.str c)
  else if key = "private_key" then some (Value.str k)
  else if key = "serial_number" then some (Value.str s)
  else none

/-- A clock that advances by one nanosecond at every reading, starting from `t0`. -/
def tickingClock (t0 : Time) : Clock := { readings := fun i => t0 + (i : Int), pos := 0 }

/-- A clock that gives the same reading forever. -/
def frozenClock (t0 : Time) : Clock := { readings := fun _ => t0, pos := 0 }

/-- A library for which no input is PEM. -/
def noPemLib : CertLib :=
  { pemDecode := fun _ => none,
    parseCertificate := fun _ => Except.error (errorsNew "x509: malformed certificate") }

/-- A library that finds a PEM block in every input and rejects its bytes. -/
def badDerLib : CertLib :=
  { pemDecode := fun _ => some { Bytes := [48, 0] },
    parseCertificate := fun _ => Except.error (errorsNew "x509: malformed certificate") }

/-- A library that decodes every input to a certificate expiring at `notAfter`. -/
def fixedCertLib (notAfter : Time) : CertLib :=
  { pemDecode := fun _ => some { Bytes := [48, 130] },
    parseCertificate := fun _ => Except.ok { NotAfter := notAfter } }

/-- The instant 2030-01-01T00:00:00Z, in nanoseconds from the zero `Time`. -/
def jan2030 : Time := 64029052800 * 1000000000

/-- A secret with a well-typed payload around the certificate string `cert`. -/
def sampleSecret (duration : Int) (renewable : Bool) (cert : String) : Secret :=
  { RequestID := "req-7f3a", LeaseID := "pki/issue/web/41", LeaseDuration := duration,
    Renewable := renewable, Data := stringData cert "key" "01:02" }

/-- A request for a web server certificate. -/
def sampleRequest : Request := { CommonName := "web.example.org", AltNames := ["www.example.org"] }

/-! ## Evaluation lemmas -/

theorem assertString_str (s : String) : assertString (some (Value.str s)) = (s, true) := rfl

theorem assertString_snd_true_iff (v : Option Value) :
    (assertString v).2 = true ↔ IsString v := by
  unfold IsString
  constructor
  · intro h
    match v, h with
    | some (Value.str s), _ => exact ⟨s, rfl⟩
  · rintro ⟨s, rfl⟩
    rfl

theorem assertString_snd_false_iff (v : Option Value) :
    (assertString v).2 = false ↔ ¬ IsString v := by
  rw [← assertString_snd_true_iff]
  cases (assertString v).2 <;> simp

theorem makeResponse_of_strings (data : Data) (c k s : String) (h : HoldsStrings data c k s) :
    makeResponse data = Except.ok { Certificate := c, PrivateKey := k, Serial := s } := by
  obtain ⟨hc, hk, hs⟩ := h
  simp [makeResponse, hc, hk, hs, assertString_str]

theorem wrapInt64_of_range (x : Int) (hlo : -(2 ^ 63) ≤ x) (hhi : x < 2 ^ 63) :
    wrapInt64 x = x := by
  unfold wrapInt64
  rw [Int.emod_eq_of_lt (by omega) (by omega)]
  omega

theorem LeaseFromSecret_duration (lib : CertLib) (clk : Clock) (req : Option Request)
    (secret : Secret) (res : Response) (hres : makeResponse secret.Data = Except.ok res)
    (hd : secret.LeaseDuration ≠ 0) :
    (LeaseFromSecret lib clk req secret).1 =
      (some (assembled secret res (clk.readings clk.pos)
        (clk.readings (clk.pos + 1) + wrapInt64 (wrapInt64 secret.LeaseDuration * 1000000000))),
       none) := by
  unfold LeaseFromSecret
  cases hr : secret.Renewable <;>
    simp [hres, hd, hr, assembled, Lease.zero, timeNow, timeAdd, durationMul, durationOfInt, Second]

theorem LeaseFromSecret_certificate (lib : CertLib) (clk : Clock) (req : Option Request)
    (secret : Secret) (res : Response) (block : Block) (cert : Certificate)
    (hres : makeResponse secret.Data = Except.ok res) (hd : secret.LeaseDuration = 0)
    (hpem : lib.pemDecode res.Certificate = some block)
    (hparse : lib.parseCertificate block.Bytes = Except.ok cert) :
    (LeaseFromSecret lib clk req secret).1 =
      (some (assembled secret res (clk.readings clk.pos) cert.NotAfter), none) := by
  unfold LeaseFromSecret
  cases hr : secret.Renewable <;>
    simp [hres, hd, hr, hpem, hparse, assembled, Lease.zero, timeNow]

theorem LeaseFromSecret_no_block (lib : CertLib) (clk : Clock) (req : Option Request)
    (secret : Secret) (res : Response)
    (hres : makeResponse secret.Data = Except.ok res) (hd : secret.LeaseDuration = 0)
    (hpem : lib.pemDecode res.Certificate = none) :
    (LeaseFromSecret lib clk req secret).1 = (none, none) := by
  unfold LeaseFromSecret
  simp [hres, hd, hpem, errorsWrap]

theorem LeaseFromSecret_bad_block (lib : CertLib) (clk : Clock) (req : Option Request)
    (secret : Secret) (res : Response) (block : Block) (e : GoError)
    (hres : makeResponse secret.Data = Except.ok res) (hd : secret.LeaseDuration = 0)
    (hpem : lib.pemDecode res.Certificate = some block)
    (hparse : lib.parseCertificate block.Bytes = Except.error e) :
    (LeaseFromSecret lib clk req secret).1 =
      (none, some (GoError.wrap e "making lease renew time")) := by
  unfold LeaseFromSecret
  simp [hres, hd, hpem, hparse, errorsWrap]

theorem LeaseFromSecret_bad_payload (lib : CertLib) (clk : Clock) (req : Option Request)
    (secret : Secret) (e : GoError) (hres : makeResponse secret.Data = Except.error e) :
    (LeaseFromSecret lib clk req secret).1 =
      (none, some (GoError.wrap e "making lease response")) := by
  unfold LeaseFromSecret
  simp [hres, errorsWrap]

theorem holdsStrings_stringData (c k s : String) : HoldsStrings (stringData c k s) c k s := by
  refine ⟨?_, ?_, ?_⟩ <;> simp [stringData]

theorem tickingClock_nonDecreasing (t0 : Time) : (tickingClock t0).NonDecreasing := by
  intro i j hij
  have h : (i : Int) ≤ (j : Int) := Int.ofNat_le.mpr hij
  exact Int.add_le_add_left h t0

theorem frozenClock_nonDecreasing (t0 : Time) : (frozenClock t0).NonDecreasing := by
  intro i j _
  simp [frozenClock]

theorem LeaseFromSecret_some_inv (lib : CertLib) (clk : Clock) (req : Option Request)
    (secret : Secret) (lease : Lease)
    (h : (LeaseFromSecret lib clk req secret).1.1 = some lease) :
    ∃ (res : Response) (till : Time), makeResponse secret.Data = Except.ok res ∧
      (LeaseFromSecret lib clk req secret).1 = (some lease, none) ∧
      lease = assembled secret res (clk.readings clk.pos) till := by
  cases hres : makeResponse secret.Data with
  | error e =>
    rw [LeaseFromSecret_bad_payload lib clk req secret e hres] at h
    cases h
  | ok res =>
    by_cases hd : secret.LeaseDuration = 0
    · cases hpem : lib.pemDecode res.Certificate with
      | none =>
        rw [LeaseFromSecret_no_block lib clk req secret res hres hd hpem] at h
        cases h
      | some block =>
        cases hparse : lib.parseCertificate block.Bytes with
        | error e =>
          rw [LeaseFromSecret_bad_block lib clk req secret res block e hres hd hpem hparse] at h
          cases h
        | ok cert =>
          have hev := LeaseFromSecret_certificate lib clk req secret res block cert hres hd
            hpem hparse
          rw [hev] at h
          refine ⟨res, cert.NotAfter, rfl, ?_, ?_⟩
          · rw [hev]; simp only [Option.some.injEq] at h; rw [h]
          · simp only [Option.some.injEq] at h; exact h.symm
    · have hev := LeaseFromSecret_duration lib clk req secret res hres hd
      rw [hev] at h
      refine ⟨res, clk.readings (clk.pos + 1) +
        wrapInt64 (wrapInt64 secret.LeaseDuration * 1000000000), rfl, ?_, ?_⟩
      · rw [hev]; simp only [Option.some.injEq] at h; rw [h]
      · simp only [Option.some.injEq] at h; exact h.symm

/-! ## The lease's validity window -/

/-- C1, as stated, fails: on a clock that advances between the two readings, a secret
with a well-typed payload and a lease duration of 3600 seconds yields a lease whose
`Till()` is not `Start()` plus 3600 seconds. -/
theorem till_not_start_plus_duration_on_ticking_clock :
    (tickingClock 0).NonDecreasing ∧
    HoldsStrings (sampleSecret 3600 true "cert").Data "cert" "key" "01:02" ∧
    (sampleSecret 3600 true "cert").LeaseDuration ≠ 0 ∧
    ∃ lease : Lease,
      (LeaseFromSecret noPemLib (tickingClock 0) (some sampleRequest)
        (sampleSecret 3600 true "cert")).1 = (some lease, none) ∧
      lease.Till ≠ lease.Start + 3600 * 1000000000 := by
  refine ⟨tickingClock_nonDecreasing 0, holdsStrings_stringData _ _ _, by decide, ?_⟩
  refine ⟨_, LeaseFromSecret_duration noPemLib (tickingClock 0) _ (sampleSecret 3600 true "cert")
    _ (makeResponse_of_strings _ _ _ _ (holdsStrings_stringData "cert" "key" "01:02"))
    (by decide), ?_⟩
  simp only [Lease.Till, Lease.Start, assembled, tickingClock, sampleSecret, wrapInt64]
  decide

/-- C1, amended: for a secret with a well-typed payload and a nonzero lease duration
whose length in nanoseconds fits a signed 64-bit integer, `LeaseFromSecret` returns a
lease with `Start()` the first clock reading and `Till()` the second clock reading plus
the lease duration in seconds; on a non-decreasing clock `Till()` is at least `Start()`
plus the duration, with equality exactly when the two readings coincide. -/
theorem till_is_second_reading_plus_duration (lib : CertLib) (clk : Clock)
    (req : Option Request) (secret : Secret) (c k s : String)
    (hdata : HoldsStrings secret.Data c k s)
    (hd : secret.LeaseDuration ≠ 0)
    (hlo : -(2 ^ 63) ≤ secret.LeaseDuration * 1000000000)
    (hhi : secret.LeaseDuration * 1000000000 < 2 ^ 63)
    (hclk : clk.NonDecreasing) :
    ∃ lease : Lease,
      (LeaseFromSecret lib clk req secret).1 = (some lease, none) ∧
      lease.Start = clk.readings clk.pos ∧
      lease.Till = clk.readings (clk.pos + 1) + secret.LeaseDuration * 1000000000 ∧
      lease.Start + secret.LeaseDuration * 1000000000 ≤ lease.Till ∧
      (lease.Till = lease.Start + secret.LeaseDuration * 1000000000 ↔
        clk.readings (clk.pos + 1) = clk.readings clk.pos) := by
  have hres := makeResponse_of_strings secret.Data c k s hdata
  have hw1 : wrapInt64 secret.LeaseDuration = secret.LeaseDuration :=
    wrapInt64_of_range _ (by omega) (by omega)
  have hw2 : wrapInt64 (secret.LeaseDuration * 1000000000) = secret.LeaseDuration * 1000000000 :=
    wrapInt64_of_range _ hlo hhi
  have hmono : clk.readings clk.pos ≤ clk.readings (clk.pos + 1) :=
    hclk clk.pos (clk.pos + 1) (Nat.le_succ _)
  have hev := LeaseFromSecret_duration lib clk req secret _ hres hd
  rw [hw1, hw2] at hev
  refine ⟨_, hev, rfl, rfl, ?_, ?_⟩
  · show clk.readings clk.pos + secret.LeaseDuration * 1000000000 ≤
      clk.readings (clk.pos + 1) + secret.LeaseDuration * 1000000000
    exact Int.add_le_add_right hmono _
  · show clk.readings (clk.pos + 1) + secret.LeaseDuration * 1000000000 =
      clk.readings clk.pos + secret.LeaseDuration * 1000000000 ↔
      clk.readings (clk.pos + 1) = clk.readings clk.pos
    exact add_left_inj _

/-- C1, amended, at a concrete input: a frozen clock and a lease duration of one hour. -/
theorem till_is_second_reading_plus_duration_witness :
    ∃ lease : Lease,
      (LeaseFromSecret noPemLib (frozenClock 5) none (sampleSecret 3600 true "cert")).1 =
        (some lease, none) ∧
      lease.Start = 5 ∧
      lease.Till = 5 + 3600 * 1000000000 ∧
      lease.Start + 3600 * 1000000000 ≤ lease.Till ∧
      (lease.Till = lease.Start + 3600 * 1000000000 ↔ (5 : Int) = 5) :=
  till_is_second_reading_plus_duration noPemLib (frozenClock 5) none
    (sampleSecret 3600 true "cert") "cert" "key" "01:02" (holdsStrings_stringData _ _ _)
    (by decide) (by decide) (by decide) (frozenClock_nonDecreasing 5)

/-- C2: for a secret with lease duration zero, a well-typed payload, and a certificate
string that PEM-decodes to a block parsing as the certificate `cert`, `LeaseFromSecret`
succeeds on every clock and the lease has `Till()` equal to `cert.NotAfter`. -/
theorem till_is_notAfter (lib : CertLib) (clk : Clock) (req : Option Request)
    (secret : Secret) (c k s : String) (block : Block) (cert : Certificate)
    (hdata : HoldsStrings secret.Data c k s)
    (hd : secret.LeaseDuration = 0)
    (hpem : lib.pemDecode c = some block)
    (hparse : lib.parseCertificate block.Bytes = Except.ok cert) :
    ∃ lease : Lease,
      (LeaseFromSecret lib clk req secret).1 = (some lease, none) ∧
      lease.Till = cert.NotAfter :=
  ⟨_, LeaseFromSecret_certificate lib clk req secret _ block cert
    (makeResponse_of_strings secret.Data c k s hdata) hd hpem hparse, rfl⟩

/-- C2 at a concrete input: a certificate with notAfter 2030-01-01T00:00:00Z yields
exactly that timestamp. -/
theorem till_is_notAfter_witness :
    ∃ lease : Lease,
      (LeaseFromSecret (fixedCertLib jan2030) (tickingClock 11) (some sampleRequest)
        (sampleSecret 0 false "pem")).1 = (some lease, none) ∧
      lease.Till = jan2030 :=
  till_is_notAfter (fixedCertLib jan2030) (tickingClock 11) (some sampleRequest)
    (sampleSecret 0 false "pem") "pem" "key" "01:02" { Bytes := [48, 130] }
    { NotAfter := jan2030 } (holdsStrings_stringData _ _ _) rfl rfl rfl

/-! ## Certificates that cannot be read -/

/-- C3 at a failing input: lease duration zero, a well-typed payload, and a certificate
string in which `pem.Decode` finds no block. `LeaseFromSecret` returns a nil lease
together with a nil error, because the error it wraps there is the nil error left by
`makeResponse`. -/
theorem no_error_when_pem_decode_fails :
    HoldsStrings (sampleSecret 0 false "not a pem block").Data "not a pem block" "key" "01:02" ∧
    noPemLib.pemDecode "not a pem block" = none ∧
    (LeaseFromSecret noPemLib (tickingClock 0) (some sampleRequest)
      (sampleSecret 0 false "not a pem block")).1 = (none, none) :=
  ⟨holdsStrings_stringData _ _ _, rfl,
    LeaseFromSecret_no_block noPemLib (tickingClock 0) (some sampleRequest)
      (sampleSecret 0 false "not a pem block") _
      (makeResponse_of_strings _ _ _ _ (holdsStrings_stringData "not a pem block" "key" "01:02"))
      rfl rfl⟩

/-- C4, as stated, fails: a provider result that declares a lease duration of 3600
seconds and carries a certificate string that is not PEM yields a lease and no error. -/
theorem lease_despite_unreadable_certificate :
    noPemLib.pemDecode "not a pem block" = none ∧
    ∃ lease : Lease,
      (LeaseFromSecret noPemLib (frozenClock 0) (some sampleRequest)
        (sampleSecret 3600 true "not a pem block")).1 = (some lease, none) :=
  ⟨rfl, _, LeaseFromSecret_duration noPemLib (frozenClock 0) (some sampleRequest)
    (sampleSecret 3600 true "not a pem block") _
    (makeResponse_of_strings _ _ _ _ (holdsStrings_stringData "not a pem block" "key" "01:02"))
    (by decide)⟩

/-- C4, amended: for a provider result with a well-typed payload, when the lease
duration is nonzero `LeaseFromSecret` returns a lease without reading the certificate;
when the lease duration is zero and the certificate string PEM-decodes to a block that
does not parse as an X.509 certificate, `LeaseFromSecret` returns no lease and the parse
error wrapped with the message "making lease renew time". -/
theorem certificate_read_only_without_duration (lib : CertLib) (clk : Clock)
    (req : Option Request) (secret : Secret) (c k s : String)
    (hdata : HoldsStrings secret.Data c k s) :
    (secret.LeaseDuration ≠ 0 →
      ∃ lease : Lease, (LeaseFromSecret lib clk req secret).1 = (some lease, none)) ∧
    (secret.LeaseDuration = 0 →
      ∀ (block : Block) (e : GoError), lib.pemDecode c = some block →
        lib.parseCertificate block.Bytes = Except.error e →
        (LeaseFromSecret lib clk req secret).1 =
          (none, some (GoError.wrap e "making lease renew time"))) := by
  have hres := makeResponse_of_strings secret.Data c k s hdata
  constructor
  · intro hd
    exact ⟨_, LeaseFromSecret_duration lib clk req secret _ hres hd⟩
  · intro hd block e hpem hparse
    exact LeaseFromSecret_bad_block lib clk req secret _ block e hres hd hpem hparse

/-- C4, amended, at concrete inputs: a one-hour lease with an unreadable certificate, and
a lease without duration whose PEM block holds malformed DER. -/
theorem certificate_read_only_without_duration_witness :
    (∃ lease : Lease,
      (LeaseFromSecret badDerLib (frozenClock 3) none (sampleSecret 3600 false "pem")).1 =
        (some lease, none)) ∧
    (LeaseFromSecret badDerLib (frozenClock 3) none (sampleSecret 0 false "pem")).1 =
      (none, some (GoError.wrap (errorsNew "x509: malformed certificate")
        "making lease renew time")) :=
  ⟨(certificate_read_only_without_duration badDerLib (frozenClock 3) none
      (sampleSecret 3600 false "pem") "pem" "key" "01:02" (holdsStrings_stringData _ _ _)).1
      (by decide),
   (certificate_read_only_without_duration badDerLib (frozenClock 3) none
      (sampleSecret 0 false "pem") "pem" "key" "01:02" (holdsStrings_stringData _ _ _)).2
      rfl { Bytes := [48, 0] } (errorsNew "x509: malformed certificate") rfl rfl⟩

/-! ## The order of `Start()` and `Till()` -/

/-- C5, as stated, fails: with a lease duration of minus one second on a frozen clock,
`LeaseFromSecret` returns a lease whose `Till()` is before its `Start()`. -/
theorem till_before_start_for_negative_duration :
    (frozenClock 0).NonDecreasing ∧
    ∃ lease : Lease,
      (LeaseFromSecret noPemLib (frozenClock 0) (some sampleRequest)
        (sampleSecret (-1) false "cert")).1 = (some lease, none) ∧
      lease.Till < lease.Start := by
  refine ⟨frozenClock_nonDecreasing 0, _,
    LeaseFromSecret_duration noPemLib (frozenClock 0) _ (sampleSecret (-1) false "cert") _
      (makeResponse_of_strings _ _ _ _ (holdsStrings_stringData "cert" "key" "01:02"))
      (by decide), ?_⟩
  simp only [Lease.Till, Lease.Start, assembled, frozenClock, sampleSecret, wrapInt64]
  decide

/-- C5, amended: on a non-decreasing clock, for a secret with a well-typed payload,
`LeaseFromSecret` returns a lease with `Till() > Start()` when the lease duration is
positive and its length in nanoseconds fits a signed 64-bit integer, and when the lease
duration is zero and the certificate parses with a notAfter later than the clock reading
taken for `Start()`. -/
theorem till_after_start (lib : CertLib) (clk : Clock) (req : Option Request)
    (secret : Secret) (c k s : String)
    (hdata : HoldsStrings secret.Data c k s)
    (hclk : clk.NonDecreasing)
    (h : (0 < secret.LeaseDuration ∧ secret.LeaseDuration * 1000000000 < 2 ^ 63) ∨
         (secret.LeaseDuration = 0 ∧ ∃ (block : Block) (cert : Certificate),
            lib.pemDecode c = some block ∧
            lib.parseCertificate block.Bytes = Except.ok cert ∧
            clk.readings clk.pos < cert.NotAfter)) :
    ∃ lease : Lease,
      (LeaseFromSecret lib clk req secret).1 = (some lease, none) ∧
      lease.Start < lease.Till := by
  have hres := makeResponse_of_strings secret.Data c k s hdata
  rcases h with ⟨hpos, hhi⟩ | ⟨hd, block, cert, hpem, hparse, hlater⟩
  · have hw1 : wrapInt64 secret.LeaseDuration = secret.LeaseDuration :=
      wrapInt64_of_range _ (by omega) (by omega)
    have hw2 : wrapInt64 (secret.LeaseDuration * 1000000000) =
        secret.LeaseDuration * 1000000000 :=
      wrapInt64_of_range _ (by omega) hhi
    have hmono : clk.readings clk.pos ≤ clk.readings (clk.pos + 1) :=
      hclk clk.pos (clk.pos + 1) (Nat.le_succ _)
    have hev := LeaseFromSecret_duration lib clk req secret _ hres (by omega)
    rw [hw1, hw2] at hev
    refine ⟨_, hev, ?_⟩
    show clk.readings clk.pos < clk.readings (clk.pos + 1) + secret.LeaseDuration * 1000000000
    have hstep : (0 : Int) < secret.LeaseDuration * 1000000000 := by omega
    exact lt_add_of_le_of_pos hmono hstep
  · exact ⟨_, LeaseFromSecret_certificate lib clk req secret _ block cert hres hd hpem hparse,
      hlater⟩

/-- C5, amended, at concrete inputs: a one-hour lease on a ticking clock, and a lease
without duration whose certificate expires at 2030-01-01T00:00:00Z. -/
theorem till_after_start_witness :
    (∃ lease : Lease,
      (LeaseFromSecret noPemLib (tickingClock 0) none (sampleSecret 3600 true "cert")).1 =
        (some lease, none) ∧ lease.Start < lease.Till) ∧
    (∃ lease : Lease,
      (LeaseFromSecret (fixedCertLib jan2030) (tickingClock 0) none
        (sampleSecret 0 true "pem")).1 = (some lease, none) ∧ lease.Start < lease.Till) :=
  ⟨till_after_start noPemLib (tickingClock 0) none (sampleSecret 3600 true "cert")
      "cert" "key" "01:02" (holdsStrings_stringData _ _ _) (tickingClock_nonDecreasing 0)
      (Or.inl ⟨by decide, by decide⟩),
   till_after_start (fixedCertLib jan2030) (tickingClock 0) none (sampleSecret 0 true "pem")
      "pem" "key" "01:02" (holdsStrings_stringData _ _ _) (tickingClock_nonDecreasing 0)
      (Or.inr ⟨rfl, { Bytes := [48, 130] }, { NotAfter := jan2030 }, rfl, rfl, by decide⟩)⟩

/-! ## The fields of a returned lease -/

/-- C6 at a failing input: for the request `sampleRequest` and a one-hour secret,
`LeaseFromSecret` succeeds and the lease's `Request()` is nil, not the request the lease
was issued for: the function never stores its argument `req`. -/
theorem request_of_returned_lease_is_nil :
    ∃ lease : Lease,
      (LeaseFromSecret noPemLib (frozenClock 0) (some sampleRequest)
        (sampleSecret 3600 false "cert")).1 = (some lease, none) ∧
      lease.Request = none ∧ lease.Request ≠ some sampleRequest :=
  ⟨_, LeaseFromSecret_duration noPemLib (frozenClock 0) (some sampleRequest)
    (sampleSecret 3600 false "cert") _
    (makeResponse_of_strings _ _ _ _ (holdsStrings_stringData "cert" "key" "01:02"))
    (by decide), rfl, by simp [Lease.Request, assembled]⟩

/-- C7: `makeResponse data` returns an error exactly when one of the keys certificate,
private_key, serial_number is missing from `data` or holds a value that is not a string;
when all three hold strings it returns the response made of them; and the error is that
of the first bad key in the order certificate, private key, serial. -/
theorem makeResponse_spec (data : Data) :
    ((∃ e, makeResponse data = Except.error e) ↔
      (¬ IsString (data "certificate") ∨ ¬ IsString (data "private_key") ∨
        ¬ IsString (data "serial_number"))) ∧
    (∀ c k s : String, HoldsStrings data c k s →
      makeResponse data = Except.ok { Certificate := c, PrivateKey := k, Serial := s }) ∧
    (¬ IsString (data "certificate") →
      makeResponse data = Except.error (errorsNew "unknown type for issued certificate")) ∧
    (IsString (data "certificate") → ¬ IsString (data "private_key") →
      makeResponse data = Except.error (errorsNew "unknown type for issued private key")) ∧
    (IsString (data "certificate") → IsString (data "private_key") →
      ¬ IsString (data "serial_number") →
      makeResponse data = Except.error (errorsNew "unknown type for issued serial")) := by
  have e1 : ¬ IsString (data "certificate") →
      makeResponse data = Except.error (errorsNew "unknown type for issued certificate") := by
    intro h
    simp [makeResponse, (assertString_snd_false_iff _).mpr h]
  have e2 : IsString (data "certificate") → ¬ IsString (data "private_key") →
      makeResponse data = Except.error (errorsNew "unknown type for issued private key") := by
    intro h1 h2
    simp [makeResponse, (assertString_snd_true_iff _).mpr h1,
      (assertString_snd_false_iff _).mpr h2]
  have e3 : IsString (data "certificate") → IsString (data "private_key") →
      ¬ IsString (data "serial_number") →
      makeResponse data = Except.error (errorsNew "unknown type for issued serial") := by
    intro h1 h2 h3
    simp [makeResponse, (assertString_snd_true_iff _).mpr h1,
      (assertString_snd_true_iff _).mpr h2, (assertString_snd_false_iff _).mpr h3]
  refine ⟨⟨?_, ?_⟩, makeResponse_of_strings data, e1, e2, e3⟩
  · rintro ⟨e, he⟩
    by_contra hall
    simp only [not_or, not_not] at hall
    obtain ⟨⟨c, hc⟩, ⟨k, hk⟩, ⟨s, hs⟩⟩ := hall
    rw [makeResponse_of_strings data c k s ⟨hc, hk, hs⟩] at he
    cases he
  · intro hbad
    by_cases h1 : IsString (data "certificate")
    · by_cases h2 : IsString (data "private_key")
      · have h3 : ¬ IsString (data "serial_number") := by
          rcases hbad with h | h | h
          · exact absurd h1 h
          · exact absurd h2 h
          · exact h
        exact ⟨_, e3 h1 h2 h3⟩
      · exact ⟨_, e2 h1 h2⟩
    · exact ⟨_, e1 h1⟩

/-- C8: for every secret for which `LeaseFromSecret` returns a lease, `ID()` is
`secret.LeaseID` when `secret.Renewable` is true and `secret.RequestID` when it is false,
and the lease's renewable flag is `secret.Renewable`. -/
theorem id_and_renewable_of_returned_lease (lib : CertLib) (clk : Clock)
    (req : Option Request) (secret : Secret) (lease : Lease)
    (h : (LeaseFromSecret lib clk req secret).1.1 = some lease) :
    (secret.Renewable = true → lease.ID = secret.LeaseID) ∧
    (secret.Renewable = false → lease.ID = secret.RequestID) ∧
    lease.renewable = secret.Renewable := by
  obtain ⟨res, till, _, _, hl⟩ := LeaseFromSecret_some_inv lib clk req secret lease h
  subst hl
  refine ⟨?_, ?_, rfl⟩
  · intro hr
    simp [Lease.ID, assembled, hr]
  · intro hr
    simp [Lease.ID, assembled, hr]

/-- C8 at concrete inputs: a renewable and a non-renewable one-hour secret. -/
theorem id_and_renewable_of_returned_lease_witness :
    (∃ lease : Lease,
      (LeaseFromSecret noPemLib (frozenClock 0) none (sampleSecret 60 true "cert")).1.1 =
        some lease ∧ lease.ID = "pki/issue/web/41" ∧ lease.renewable = true) ∧
    (∃ lease : Lease,
      (LeaseFromSecret noPemLib (frozenClock 0) none (sampleSecret 60 false "cert")).1.1 =
        some lease ∧ lease.ID = "req-7f3a" ∧ lease.renewable = false) := by
  have hT := LeaseFromSecret_duration noPemLib (frozenClock 0) none
    (sampleSecret 60 true "cert") _
    (makeResponse_of_strings _ _ _ _ (holdsStrings_stringData "cert" "key" "01:02"))
    (by decide)
  have hF := LeaseFromSecret_duration noPemLib (frozenClock 0) none
    (sampleSecret 60 false "cert") _
    (makeResponse_of_strings _ _ _ _ (holdsStrings_stringData "cert" "key" "01:02"))
    (by decide)
  have hT1 := congrArg Prod.fst hT
  have hF1 := congrArg Prod.fst hF
  exact ⟨⟨_, hT1,
      (id_and_renewable_of_returned_lease noPemLib (frozenClock 0) none
        (sampleSecret 60 true "cert") _ hT1).1 rfl,
      (id_and_renewable_of_returned_lease noPemLib (frozenClock 0) none
        (sampleSecret 60 true "cert") _ hT1).2.2⟩,
    ⟨_, hF1,
      (id_and_renewable_of_returned_lease noPemLib (frozenClock 0) none
        (sampleSecret 60 false "cert") _ hF1).2.1 rfl,
      (id_and_renewable_of_returned_lease noPemLib (frozenClock 0) none
        (sampleSecret 60 false "cert") _ hF1).2.2⟩⟩

/-- C9 at a failing input: for a renewable secret with lease duration zero whose
certificate string is empty, `LeaseFromSecret` returns without an error and without a
lease: both components of its result are nil. -/
theorem nil_lease_with_nil_error :
    (LeaseFromSecret noPemLib (frozenClock 7) none (sampleSecret 0 true "")).1.2 = none ∧
    (LeaseFromSecret noPemLib (frozenClock 7) none (sampleSecret 0 true "")).1.1 = none := by
  have h := LeaseFromSecret_no_block noPemLib (frozenClock 7) none (sampleSecret 0 true "") _
    (makeResponse_of_strings _ _ _ _ (holdsStrings_stringData "" "key" "01:02")) rfl rfl
  rw [h]
  exact ⟨rfl, rfl⟩

/-- C7 at concrete inputs: a complete payload, and a payload whose certificate and serial
are both bad, for which the certificate's error is reported. -/
theorem makeResponse_spec_witness :
    makeResponse (stringData "cert" "key" "01:02") =
      Except.ok { Certificate := "cert", PrivateKey := "key", Serial := "01:02" } ∧
    makeResponse (fun key => if key = "private_key" then some (Value.str "key")
        else if key = "certificate" then some (Value.number "42") else none) =
      Except.error (errorsNew "unknown type for issued certificate") :=
  ⟨(makeResponse_spec (stringData "cert" "key" "01:02")).2.1 "cert" "key" "01:02"
      (holdsStrings_stringData _ _ _),
   (makeResponse_spec _).2.2.1 (by
      rintro ⟨s, hs⟩
      simp at hs)⟩

/-! ## `applyAnchors` -/

section Anchors

variable {Prov Store DestId DestOpts ActionCfg Dest Action Status Con : Type}

theorem buildable_or_unbuildable
    (env : Collaborators Prov Store DestId DestOpts ActionCfg Dest Action Status Con)
    (store : Store) (a : Anchor DestId DestOpts ActionCfg) :
    (∃ m, BuiltFrom env store a m) ∨ Unbuildable env store a := by
  unfold BuiltFrom Unbuildable
  cases h1 : env.Fetch store a.Provider with
  | error e => exact Or.inr (Or.inl ⟨e, rfl⟩)
  | ok prv =>
    cases h2 : env.ToDest a.Dest a.DestOptions with
    | error e => exact Or.inr (Or.inr (Or.inl ⟨e, rfl⟩))
    | ok dest =>
      cases h3 : env.ToAction a.Action with
      | error e => exact Or.inr (Or.inr (Or.inr ⟨e, rfl⟩))
      | ok action => exact Or.inl ⟨_, prv, dest, action, rfl, rfl, rfl, rfl⟩

theorem applyAnchorsLoop_step
    (env : Collaborators Prov Store DestId DestOpts ActionCfg Dest Action Status Con)
    (store : Store) (a : Anchor DestId DestOpts ActionCfg) (m : Member Prov Dest Action)
    (rest : List (Anchor DestId DestOpts ActionCfg)) (con : Con) (status : List Status)
    (h : BuiltFrom env store a m) :
    applyAnchorsLoop env store (a :: rest) con status =
      applyAnchorsLoop env store rest (env.AddMember con m).2
        (status ++ [(env.AddMember con m).1]) := by
  obtain ⟨prv, dest, action, h1, h2, h3, rfl⟩ := h
  simp [applyAnchorsLoop, h1, h2, h3, NewMember, DefaultLeaseHandle]

theorem applyAnchorsLoop_stop
    (env : Collaborators Prov Store DestId DestOpts ActionCfg Dest Action Status Con)
    (store : Store) (a : Anchor DestId DestOpts ActionCfg)
    (rest : List (Anchor DestId DestOpts ActionCfg)) (con : Con) (status : List Status)
    (h : Unbuildable env store a) :
    ∃ e, applyAnchorsLoop env store (a :: rest) con status = ((none, some e), con) := by
  cases h1 : env.Fetch store a.Provider with
  | error e =>
    exact ⟨GoError.wrap e "getting anchor provider", by simp [applyAnchorsLoop, h1, errorsWrap]⟩
  | ok prv =>
    cases h2 : env.ToDest a.Dest a.DestOptions with
    | error e =>
      exact ⟨GoError.wrap e "make dest for anchor",
        by simp [applyAnchorsLoop, h1, h2, errorsWrap]⟩
    | ok dest =>
      cases h3 : env.ToAction a.Action with
      | error e =>
        exact ⟨GoError.wrap e "make action for anchor",
          by simp [applyAnchorsLoop, h1, h2, h3, errorsWrap]⟩
      | ok action =>
        exfalso
        rcases h with ⟨e, he⟩ | ⟨e, he⟩ | ⟨e, he⟩
        · rw [h1] at he; cases he
        · rw [h2] at he; cases he
        · rw [h3] at he; cases he

theorem applyAnchorsLoop_all
    (env : Collaborators Prov Store DestId DestOpts ActionCfg Dest Action Status Con)
    (store : Store) (anchors : List (Anchor DestId DestOpts ActionCfg))
    (members : List (Member Prov Dest Action))
    (h : List.Forall₂ (BuiltFrom env store) anchors members) :
    ∀ (con : Con) (status : List Status),
      applyAnchorsLoop env store anchors con status =
        ((some (status ++ (addAll env.AddMember con members).1), none),
          (addAll env.AddMember con members).2) := by
  induction h with
  | nil =>
    intro con status
    simp [applyAnchorsLoop, addAll]
  | cons hab _ ih =>
    intro con status
    rw [applyAnchorsLoop_step env store _ _ _ con status hab, ih]
    simp [addAll]

theorem applyAnchorsLoop_first_failure
    (env : Collaborators Prov Store DestId DestOpts ActionCfg Dest Action Status Con)
    (store : Store) (pre : List (Anchor DestId DestOpts ActionCfg))
    (members : List (Member Prov Dest Action))
    (a : Anchor DestId DestOpts ActionCfg) (post : List (Anchor DestId DestOpts ActionCfg))
    (h : List.Forall₂ (BuiltFrom env store) pre members)
    (ha : Unbuildable env store a) :
    ∀ (con : Con) (status : List Status),
      ∃ e, applyAnchorsLoop env store (pre ++ a :: post) con status =
        ((none, some e), (addAll env.AddMember con members).2) := by
  induction h with
  | nil =>
    intro con status
    simpa [addAll] using applyAnchorsLoop_stop env store a post con status ha
  | cons hab _ ih =>
    intro con status
    rw [List.cons_append, applyAnchorsLoop_step env store _ _ _ con status hab]
    simpa [addAll] using ih _ _

theorem addAll_length {M : Type} (add : Con → M → Status × Con) (ms : List M) :
    ∀ con : Con, (addAll add con ms).1.length = ms.length := by
  induction ms with
  | nil => intro con; rfl
  | cons m ms ih => intro con; simp [addAll, ih]

theorem addAll_get {M : Type} (add : Con → M → Status × Con) (ms : List M) :
    ∀ (con : Con) (i : Nat) (hi : i < ms.length),
      (addAll add con ms).1[i]? =
        some (add (addAll add con (ms.take i)).2 (ms.get ⟨i, hi⟩)).1 := by
  induction ms with
  | nil => intro con i hi; cases hi
  | cons m ms ih =>
    intro con i hi
    cases i with
    | zero => simp [addAll]
    | succ i =>
      have hi2 : i < ms.length := Nat.lt_of_succ_lt_succ hi
      simpa [addAll] using ih (add con m).2 i hi2

theorem builtFrom_sample (name : String) (hname : ("/etc/ssl/" ++ name = "") = False) :
    BuiltFrom sampleEnv () (sampleAnchor name "vault") (sampleMember name) :=
  ⟨"vault-provider", "/etc/ssl/" ++ name, "reload", by simp [sampleEnv, sampleAnchor],
    by simp [sampleEnv, sampleAnchor, hname], by simp [sampleEnv, sampleAnchor], rfl⟩

/-- C10: `applyAnchors` processes the anchors in list order. Every anchor either can be
turned into a member or cannot (its provider is not in the store, or its destination or
action cannot be constructed). When every anchor can, the call returns no error and as
many statuses as anchors, the i-th being the status returned by `AddMember` for the
member built from the i-th anchor, called on the conductor that holds the members of the
anchors before it. When the anchors `pre` can and the next anchor cannot, the call
returns an error and a nil status list, and exactly the members of `pre` have been added
to the conductor. -/
theorem applyAnchors_spec
    (env : Collaborators Prov Store DestId DestOpts ActionCfg Dest Action Status Con)
    (store : Store) (con : Con) :
    (∀ a : Anchor DestId DestOpts ActionCfg,
      (∃ m, BuiltFrom env store a m) ∨ Unbuildable env store a) ∧
    (∀ (anchors : List (Anchor DestId DestOpts ActionCfg))
       (members : List (Member Prov Dest Action)),
      List.Forall₂ (BuiltFrom env store) anchors members →
        applyAnchors env anchors con store =
          ((some (addAll env.AddMember con members).1, none),
            (addAll env.AddMember con members).2) ∧
        (addAll env.AddMember con members).1.length = anchors.length ∧
        ∀ (i : Nat) (hi : i < members.length),
          (addAll env.AddMember con members).1[i]? =
            some (env.AddMember (addAll env.AddMember con (members.take i)).2
              (members.get ⟨i, hi⟩)).1) ∧
    (∀ (pre : List (Anchor DestId DestOpts ActionCfg)) (a : Anchor DestId DestOpts ActionCfg)
       (post : List (Anchor DestId DestOpts ActionCfg))
       (members : List (Member Prov Dest Action)),
      List.Forall₂ (BuiltFrom env store) pre members → Unbuildable env store a →
        ∃ e, applyAnchors env (pre ++ a :: post) con store =
          ((none, some e), (addAll env.AddMember con members).2)) := by
  refine ⟨buildable_or_unbuildable env store, ?_, ?_⟩
  · intro anchors members h
    refine ⟨?_, ?_, addAll_get env.AddMember members con⟩
    · unfold applyAnchors
      rw [applyAnchorsLoop_all env store anchors members h]
      simp
    · rw [addAll_length, h.length_eq]
  · intro pre a post members h ha
    exact applyAnchorsLoop_first_failure env store pre members a post h ha con []

/-- C10 at concrete inputs: two anchors on the provider `"vault"`, and three anchors of
which the second names a provider that is not in the store. -/
theorem applyAnchors_spec_witness :
    applyAnchors sampleEnv [sampleAnchor "web" "vault", sampleAnchor "db" "vault"] [] () =
      ((some ["web", "db"], none), ["web", "db"]) ∧
    ∃ e, applyAnchors sampleEnv
        [sampleAnchor "web" "vault", sampleAnchor "db" "consul", sampleAnchor "api" "vault"]
        [] () = ((none, some e), ["web"]) :=
  ⟨((applyAnchors_spec sampleEnv () []).2.1
      [sampleAnchor "web" "vault", sampleAnchor "db" "vault"]
      [sampleMember "web", sampleMember "db"]
      (List.Forall₂.cons (builtFrom_sample "web" (by decide))
        (List.Forall₂.cons (builtFrom_sample "db" (by decide)) List.Forall₂.nil))).1,
   (applyAnchors_spec sampleEnv () []).2.2
      [sampleAnchor "web" "vault"] (sampleAnchor "db" "consul") [sampleAnchor "api" "vault"]
      [sampleMember "web"]
      (List.Forall₂.cons (builtFrom_sample "web" (by decide)) List.Forall₂.nil)
      (Or.inl ⟨errorsNew "provider not found", by simp [sampleEnv, sampleAnchor]⟩)⟩

end Anchors

end Disttrust
